import Mathlib

/-!
Verification development for the powny/raava distributed job dispatcher.

We shallowly embed the coordination-store layer (`src/raava/zoo.py`), the
collector (`src/raava/collector.py`), the rule matcher (`src/raava/rules.py`),
the application main loop (`src/powny/core/apps/__init__.py`) and the API
resource handler (`src/powny/core/api/__init__.py`).

Modelling conventions:
* A ZooKeeper path is a list of name segments (`/control/jobs/x` becomes
  `["control", "jobs", "x"]`).
* The store is an association list from paths to payloads together with the
  sequence counter used for sequential node names.
* Pickled payloads are modelled by the inductive type `PyObj`; raw
  (non-pickled, e.g. empty) node data is `PyObj.raw`, and wall-clock
  timestamps are modelled as integers.
* A multi-operation transaction is a list of operations applied in order;
  it commits only if every operation succeeds, otherwise it has no effect,
  mirroring ZooKeeper multi-op semantics.
-/

namespace Powny

/-- A deserialized node payload (the image of Python values under pickle).
`raw` stands for node data that is not a pickle (e.g. the empty data with
which `client.create(path)` and the kazoo lock recipe create nodes). -/
inductive PyObj where
  | raw : PyObj
  | pyNone : PyObj
  | int : Int → PyObj
  | str : String → PyObj
  | dict : List (String × PyObj) → PyObj

mutual

/-- Python `==`, modelled as structural equality of payloads. -/
def PyObj.beq : PyObj → PyObj → Bool
  | .raw, .raw => true
  | .pyNone, .pyNone => true
  | .int m, .int n => m == n
  | .str a, .str b => a == b
  | .dict xs, .dict ys => PyObj.beqEntries xs ys
  | _, _ => false

/-- Structural equality of dict entry lists. -/
def PyObj.beqEntries : List (String × PyObj) → List (String × PyObj) → Bool
  | [], [] => true
  | (k₁, v₁) :: t₁, (k₂, v₂) :: t₂ =>
      k₁ == k₂ && PyObj.beq v₁ v₂ && PyObj.beqEntries t₁ t₂
  | _, _ => false

end

instance : BEq PyObj := ⟨PyObj.beq⟩

/-- A store path, as the list of its name segments. -/
abbrev ZPath := List String

/-- The coordination store: existing nodes with their payloads, plus the
counter that generates suffixes of sequential nodes. -/
structure ZkStore where
  nodes : List (ZPath × PyObj)
  nextSeq : Nat

/-- Does a node exist at path `p`? -/
def zkExists (s : ZkStore) (p : ZPath) : Bool :=
  s.nodes.any (fun e => e.1 == p)

/-- The payload of the node at `p`, if it exists. -/
def zkLookup (s : ZkStore) (p : ZPath) : Option PyObj :=
  (s.nodes.find? (fun e => e.1 == p)).map (fun e => e.2)

/-- Does the node at `p` have a child (some node whose parent is `p`)? -/
def hasChild (s : ZkStore) (p : ZPath) : Bool :=
  s.nodes.any (fun e => !e.1.isEmpty && e.1.dropLast == p)

/-- Child node names of `p` (the result of `client.get_children`). -/
def getChildren (s : ZkStore) (p : ZPath) : List String :=
  (s.nodes.filter (fun e => !e.1.isEmpty && e.1.dropLast == p)).map
    (fun e => e.1.getLastD "")

/-- Well-formedness of a store: every node deeper than one level has an
existing parent (ZooKeeper never holds orphan nodes). -/
def wfStore (s : ZkStore) : Bool :=
  s.nodes.all (fun e => e.1.length ≤ 1 || zkExists s e.1.dropLast)

/-- Outcome of `Client.pget` (`pickle.loads(self.get(path)[0])`):
the node may be absent (`NoNodeError`), hold non-pickled data
(`EOFError`/`UnpicklingError`), or hold a deserializable payload. -/
inductive PgetResult where
  | noNode : PgetResult
  | notPickled : PgetResult
  | val : PyObj → PgetResult

/-- `Client.pget` from `src/raava/zoo.py`. -/
def pget (s : ZkStore) (p : ZPath) : PgetResult :=
  match zkLookup s p with
  | none => .noNode
  | some .raw => .notPickled
  | some v => .val v

/-- Pad a natural number with leading zeros to the given width
(Python `"{:03d}"` / ZooKeeper `%010d` sequence suffixes). -/
def padZeros (width : Nat) (n : Nat) : String :=
  let s := toString n
  String.mk (List.replicate (width - s.length) '0') ++ s

/-- One operation of a multi-op transaction (`TransactionRequest`). -/
inductive ZOp where
  | delete : ZPath → ZOp
  | create : ZPath → PyObj → ZOp
  | createSeq : ZPath → PyObj → ZOp
  | setData : ZPath → PyObj → ZOp

/-- Apply one operation, `none` meaning the operation fails:
* `delete` fails on a missing node or one that still has children;
* `create` fails on an existing node or a missing parent;
* `createSeq` (sequential create) appends the sequence counter to the last
  segment, requires the parent to exist, and bumps the counter;
* `setData` fails on a missing node. -/
def applyOp (s : ZkStore) : ZOp → Option ZkStore
  | .delete p =>
      if zkExists s p && !hasChild s p then
        some { s with nodes := s.nodes.filter (fun e => !(e.1 == p)) }
      else
        none
  | .create p d =>
      if !p.isEmpty && (p.length == 1 || zkExists s p.dropLast) && !zkExists s p then
        some { s with nodes := (p, d) :: s.nodes }
      else
        none
  | .createSeq p d =>
      if p.isEmpty then none
      else
        if (p.dropLast.isEmpty || zkExists s p.dropLast) &&
            !zkExists s (p.dropLast ++ [p.getLastD "" ++ padZeros 10 s.nextSeq]) then
          some { nodes := (p.dropLast ++ [p.getLastD "" ++ padZeros 10 s.nextSeq], d) :: s.nodes,
                 nextSeq := s.nextSeq + 1 }
        else
          none
  | .setData p d =>
      if zkExists s p then
        some { s with nodes := s.nodes.map (fun e => if e.1 == p then (p, d) else e) }
      else
        none

/-- Apply the operations of a transaction in order; `none` if any fails. -/
def applyTxn : ZkStore → List ZOp → Option ZkStore
  | s, [] => some s
  | s, op :: rest =>
      match applyOp s op with
      | some s₁ => applyTxn s₁ rest
      | none => none

/-- Commit a transaction: on failure the store is unchanged and the failure
is reported (`check_transaction` raising `TransactionError`, which the
collector catches and logs). -/
def commitTxn (s : ZkStore) (ops : List ZOp) : ZkStore :=
  (applyTxn s ops).getD s

/-! ### Namespace constants (`src/raava/zoo.py`) -/

def INPUT_PATH : ZPath := ["input"]
def CONTROL_PATH : ZPath := ["control"]
def READY_PATH : ZPath := ["ready"]
def RUNNING_PATH : ZPath := ["running"]
def CORE_PATH : ZPath := ["core"]

def LOCK : String := "lock"

def CONTROL_VERSION : String := "version"
def CONTROL_PARENTS : String := "parents"
def CONTROL_ADDED : String := "added"
def CONTROL_SPLITTED : String := "splitted"
def CONTROL_JOBS : String := "jobs"
def CONTROL_JOBS_PATH : ZPath := CONTROL_PATH ++ [CONTROL_JOBS]
def CONTROL_TASKS : String := "tasks"
def CONTROL_TASK_CREATED : String := "created"
def CONTROL_TASK_RECYCLED : String := "recycled"
def CONTROL_TASK_FINISHED : String := "finished"
def CONTROL_TASK_STATUS : String := "status"
def CONTROL_TASK_STACK : String := "stack"
def CONTROL_TASK_EXC : String := "exc"
def CONTROL_CANCEL : String := "cancel"
def CONTROL_LOCK_PATH : ZPath := CONTROL_PATH ++ [LOCK]

def READY_JOB_ID : String := "job_id"
def READY_TASK_ID : String := "task_id"
def READY_HANDLER : String := "handler"
def READY_STATE : String := "state"

def RUNNING_JOB_ID : String := READY_JOB_ID
def RUNNING_HANDLER : String := READY_HANDLER
def RUNNING_STATE : String := READY_STATE

def JOBS_COUNTER_PATH : ZPath := CORE_PATH ++ ["jobs_counter"]

/-- Modelled from the spec: `collector.py` references `zoo.CONTROL_LOCK`,
which the provided `zoo.py` does not define (historical drift between the
two zoo namespace files noted in the spec). Per the zoo scheme comment,
the per-job collector lock lives at `/control/jobs/<job_uuid>/lock`. -/
def CONTROL_LOCK : String := "lock"

/-- Modelled from the spec: `collector.py` references `zoo.RUNNING_LOCK`,
absent from the provided `zoo.py`; per the zoo scheme comment the per-task
lock lives at `/running/<task_uuid>/lock`. -/
def RUNNING_LOCK : String := "lock"

/-- Modelled from the spec: `collector.py` references `zoo.CONTROL_TASK_ADDED`,
absent from the provided `zoo.py`; it names the `added` timestamp leaf the
reap transaction deletes under each task. -/
def CONTROL_TASK_ADDED : String := "added"

/-- Modelled from the spec: `collector.py` references
`zoo.CONTROL_TASK_SPLITTED`, absent from the provided `zoo.py`; it names the
`splitted` timestamp leaf the reap transaction deletes under each task. -/
def CONTROL_TASK_SPLITTED : String := "splitted"

/-- `/control/jobs/<job_id>`. -/
def jobPath (job_id : String) : ZPath := CONTROL_JOBS_PATH ++ [job_id]

/-- `/control/jobs/<job_id>/tasks/<task_id>/<node>`. -/
def taskNodePath (job_id task_id node : String) : ZPath :=
  jobPath job_id ++ [CONTROL_TASKS, task_id, node]

/-- `/running/<task_id>`. -/
def runningPath (task_id : String) : ZPath := RUNNING_PATH ++ [task_id]

/-! ### Locking and counter recipes (`src/raava/zoo.py`) -/

/-- `SingleLock.try_acquire`: create an ephemeral node at the lock path.
Succeeds iff the parent exists (otherwise `NoNodeError`, caught, `False`)
and the node does not already exist (otherwise `NodeExistsError`, `False`).
The creation of the ephemeral node itself is abstracted away: the claims
below only concern the decision taken, never a still-held lock node. -/
def tryAcquire (s : ZkStore) (p : ZPath) : Bool :=
  (p.length == 1 || zkExists s p.dropLast) && !zkExists s p

/-- Create the node at `q` with empty (non-pickled) data if it is absent
(one step of kazoo's `ensure_path`). -/
def ensureNode (s : ZkStore) (q : ZPath) : ZkStore :=
  if zkExists s q then s else { s with nodes := (q, .raw) :: s.nodes }

/-- All non-empty prefixes of a path, shortest first. -/
def ancestorChain (p : ZPath) : List ZPath :=
  (List.range p.length).map (fun i => p.take (i + 1))

/-- kazoo `ensure_path`: create the node and all its ancestors (with empty
data) if absent. The kazoo `Lock` recipe runs this on the lock path when
entering the context manager. -/
def ensurePath (s : ZkStore) (p : ZPath) : ZkStore :=
  (ancestorChain p).foldl ensureNode s

/-- `client.set` with a pickled payload (`Client.pset`); fails with
`NoNodeError` if the node is absent. -/
def zkSet (s : ZkStore) (p : ZPath) (d : PyObj) : Option ZkStore :=
  if zkExists s p then
    some { s with nodes := s.nodes.map (fun e => if e.1 == p then (p, d) else e) }
  else
    none

/-- `IncrementalCounter.increment` from `src/raava/zoo.py`: entering
`client.Lock(<path>/lock)` ensures the lock path (and hence `<path>`)
exists; `pget` of an absent (`NoNodeError`) or empty (`EOFError`) node
yields 0; the incremented value is written back and the pre-increment
value returned. `none` models the `TypeError` of `value + 1` on a stored
payload that is not an integer. -/
def increment (s : ZkStore) (path : ZPath) : Option (Int × ZkStore) :=
  let s₁ := ensurePath s (path ++ [LOCK])
  let value? : Option Int :=
    match pget s₁ path with
    | .noNode => some 0
    | .notPickled => some 0
    | .val (.int n) => some n
    | .val _ => none
  match value? with
  | none => none
  | some value => (zkSet s₁ path (.int (value + 1))).map (fun s₂ => (value, s₂))

/-- `TransactionRequest.lq_put` from `src/raava/zoo.py`: a sequential create
of `<queue>/entries/entry-<priority:03d>-<seq>`. -/
def lq_put (queue_path : ZPath) (data : PyObj) (priority : Nat := 100) : ZOp :=
  .createSeq (queue_path ++ ["entries", "entry-" ++ padZeros 3 priority ++ "-"]) data

/-! ### Collector (`src/raava/collector.py`) -/

/-- The constructor arguments of `CollectorThread.__init__`. -/
structure CollectorConfig where
  interval : Int
  delay : Int
  recycled_priority : Nat

/-- Python `d[k]` on a dict payload; `none` models the uncaught
`KeyError`/`TypeError` when the key is absent or the payload not a dict. -/
def dictGet (d : PyObj) (k : String) : Option PyObj :=
  match d with
  | .dict entries => (entries.find? (fun e => e.1 == k)).map (fun e => e.2)
  | _ => none

/-- A payload used as a path segment must be a string. -/
def asStr : PyObj → Option String
  | .str s => some s
  | _ => none

/-- Python `x or 0` followed by use as a number in `max(...) + delay`:
`None`, `0`, and other falsy values yield 0, integers yield themselves,
and remaining shapes are the uncaught `TypeError` of `max`. -/
def timeVal : PyObj → Option Int
  | .pyNone => some 0
  | .int n => some n
  | .str s => if s.isEmpty then some 0 else none
  | .dict entries => if entries.isEmpty then some 0 else none
  | .raw => none

/-- The transaction built by `CollectorThread._push_back_running` from the
running record `running_dict` of `task_id`: delete the per-task lock,
delete the running node, `lq_put` the saved fields onto `/ready` (at the
default priority — `cfg.recycled_priority` is never passed), and set
`recycled` to the current time on the control task. `none` models the
uncaught `KeyError` on a malformed running record. -/
def pushBackRunningOps (cfg : CollectorConfig) (running_dict : PyObj)
    (task_id : String) (now : Int) : Option (List ZOp) := do
  let job_id ← (dictGet running_dict RUNNING_JOB_ID).bind asStr
  let handler ← dictGet running_dict RUNNING_HANDLER
  let state ← dictGet running_dict RUNNING_STATE
  some [ZOp.delete (runningPath task_id ++ [RUNNING_LOCK]),
        ZOp.delete (runningPath task_id),
        lq_put READY_PATH (.dict [(READY_JOB_ID, .str job_id),
                                  (READY_TASK_ID, .str task_id),
                                  (READY_HANDLER, handler),
                                  (READY_STATE, state)]),
        ZOp.setData (taskNodePath job_id task_id CONTROL_TASK_RECYCLED) (.int now)]

/-- `CollectorThread._push_back_running`: re-read the running record, build
the requeue transaction and commit it (a failed commit is logged and leaves
the store unchanged). `none` models the uncaught errors of an unreadable
running record. -/
def pushBackRunning (cfg : CollectorConfig) (s : ZkStore) (task_id : String)
    (now : Int) : Option ZkStore :=
  match pget s (runningPath task_id) with
  | .val rd => (pushBackRunningOps cfg rd task_id now).map (fun ops => commitTxn s ops)
  | _ => none

/-- The transaction built by `CollectorThread._remove_running`. -/
def removeRunningOps (task_id : String) : List ZOp :=
  [ZOp.delete (runningPath task_id ++ [RUNNING_LOCK]),
   ZOp.delete (runningPath task_id)]

/-- The per-task leaves `CollectorThread._remove_control` deletes under
`tasks/<task_id>` before deleting the task node itself. -/
def taskLeafNames : List String :=
  [CONTROL_TASK_ADDED, CONTROL_TASK_SPLITTED, CONTROL_TASK_CREATED,
   CONTROL_TASK_RECYCLED, CONTROL_TASK_FINISHED, CONTROL_TASK_STATUS]

/-- The reap transaction built by `CollectorThread._remove_control` for
`job_id`: delete `parents`; for every child of `tasks/` delete its leaves
and then the task node; delete the `tasks` directory, the per-job lock and
the job node; finally (appended after the job-node delete, under
`/control/lock`) delete the `cancel` node if it exists. -/
def removeControlOps (s : ZkStore) (job_id : String) : List ZOp :=
  [ZOp.delete (jobPath job_id ++ [CONTROL_PARENTS])]
  ++ (getChildren s (jobPath job_id ++ [CONTROL_TASKS])).flatMap (fun task_id =>
       taskLeafNames.map (fun node => ZOp.delete (taskNodePath job_id task_id node))
       ++ [ZOp.delete (jobPath job_id ++ [CONTROL_TASKS, task_id])])
  ++ [ZOp.delete (jobPath job_id ++ [CONTROL_TASKS]),
      ZOp.delete (jobPath job_id ++ [CONTROL_LOCK]),
      ZOp.delete (jobPath job_id)]
  ++ (if zkExists s (jobPath job_id ++ [CONTROL_CANCEL]) then
        [ZOp.delete (jobPath job_id ++ [CONTROL_CANCEL])]
      else [])

/-- `CollectorThread._remove_control`: build the reap transaction and commit
it (failures are logged and leave the store unchanged). -/
def removeControl (s : ZkStore) (job_id : String) : ZkStore :=
  commitTxn s (removeControlOps s job_id)

/-- What `CollectorThread._poll_running` does with one child of `/running`. -/
inductive RunAction where
  /-- `continue` by the too-young guard, before any lock attempt. -/
  | skip : RunAction
  /-- `continue` because `try_acquire` on the per-task lock failed. -/
  | skipLocked : RunAction
  /-- `_remove_running` under the acquired per-task lock. -/
  | removeRunning : RunAction
  /-- `_push_back_running` under the acquired per-task lock. -/
  | pushBack : RunAction
deriving DecidableEq

/-- The decision `CollectorThread._poll_running` takes for `task_id`:
read the running record and the control task's `created`/`recycled`
(a `NoNodeError` anywhere in that block selects the garbage branch);
skip tasks younger than `delay`; otherwise try the per-task lock and
either requeue (control `finished` unset, i.e. `None`) or remove.
`none` models exceptions the sweep does not catch (unpickling errors,
a malformed running record, `max` on a non-number, or a `NoNodeError`
from the `finished` read outside the `try` block). -/
def pollRunningTask (s : ZkStore) (task_id : String) (delay now : Int) :
    Option RunAction :=
  match pget s (runningPath task_id) with
  | .notPickled => none
  | .noNode =>
      some (if tryAcquire s (runningPath task_id ++ [RUNNING_LOCK]) then
              .removeRunning
            else .skipLocked)
  | .val rd =>
    match (dictGet rd RUNNING_JOB_ID).bind asStr with
    | none => none
    | some job_id =>
      match pget s (taskNodePath job_id task_id CONTROL_TASK_CREATED) with
      | .notPickled => none
      | .noNode =>
          some (if tryAcquire s (runningPath task_id ++ [RUNNING_LOCK]) then
                  .removeRunning
                else .skipLocked)
      | .val c =>
        match pget s (taskNodePath job_id task_id CONTROL_TASK_RECYCLED) with
        | .notPickled => none
        | .noNode =>
            some (if tryAcquire s (runningPath task_id ++ [RUNNING_LOCK]) then
                    .removeRunning
                  else .skipLocked)
        | .val r =>
          match timeVal c, timeVal r with
          | some cv, some rv =>
              if max cv rv + delay > now then some .skip
              else if !(tryAcquire s (runningPath task_id ++ [RUNNING_LOCK])) then
                some .skipLocked
              else
                match pget s (taskNodePath job_id task_id CONTROL_TASK_FINISHED) with
                | .val .pyNone => some .pushBack
                | .val _ => some .removeRunning
                | _ => none
          | _, _ => none

/-! ### Rule matcher (`src/raava/rules.py`) -/

def EXTRA_HANDLER : String := "handler"
def EXTRA_JOB_ID : String := "job_id"

/-- A filter comparator: either a plain value (not an `AbstractComparator`,
compared with `==` by `_compare`), the default `EqComparator(operand)`, or
another `AbstractComparator` subclass whose `compare` method may raise
(modelled as a function into `Except`). -/
inductive Comparator where
  | raw : PyObj → Comparator
  | eqc : PyObj → Comparator
  | custom : (PyObj → Except Unit Bool) → PyObj → Comparator

/-- `rules._compare`: a raw comparator is compared with `==`; an
`AbstractComparator`'s `compare` is called, any exception it raises being
re-raised as `ComparsionError` (the `error` case). -/
def rulesCompare : Comparator → PyObj → Except Unit Bool
  | .raw operand, value => .ok (operand == value)
  | .eqc operand, value => .ok (value == operand)
  | .custom f _, value =>
      match f value with
      | .ok b => .ok b
      | .error _ => .error ()

/-- A registered handler: `hid` stands for the identity of the Python
function object; `disabled` for the `_disable_handler` attribute; the
filter lists for the `event_filters`/`extra_filters` attributes. -/
structure Handler where
  hid : Nat
  disabled : Bool
  event_filters : List (String × Comparator)
  extra_filters : List (String × Comparator)

/-- An `EventRoot`: the event attributes (the dict itself) and the extra
attributes returned by `get_extra()`. -/
structure EventRoot where
  attrs : List (String × PyObj)
  extra : List (String × PyObj)

/-- Python `d.get(k)` on a string-keyed mapping. -/
def lookupKey (d : List (String × PyObj)) (k : String) : Option PyObj :=
  (d.find? (fun e => e.1 == k)).map (fun e => e.2)

/-- `rules._check_match` (its `job_id`/`handler` arguments feed only log
messages and are dropped): every filter key must be present in the mapping
and its comparator must succeed with `True`; a raised `ComparsionError` is
caught and yields `False`. -/
def checkMatch (filters : List (String × Comparator))
    (event : List (String × PyObj)) : Bool :=
  filters.all (fun kc =>
    match lookupKey event kc.1 with
    | none => false
    | some v =>
        match rulesCompare kc.2 v with
        | .ok b => b
        | .error _ => false)

/-- The selection predicate of the `get_handlers` loop body. -/
def handlerSelected (handler : Handler) (event_root : EventRoot) : Bool :=
  if handler.disabled then false
  else if handler.event_filters.length + handler.extra_filters.length == 0 then true
  else
    checkMatch handler.event_filters event_root.attrs &&
    checkMatch handler.extra_filters event_root.extra

/-- The registry passed to `get_handlers`: a mapping from handler-type tags
to the registered handlers of that type. -/
abbrev Registry := List (PyObj × List Handler)

/-- Python `handlers.get(handler_type, set())`. -/
def registryGet (handlers : Registry) (handler_type : PyObj) : List Handler :=
  ((handlers.find? (fun e => e.1 == handler_type)).map (fun e => e.2)).getD []

/-- `rules.get_handlers`: look up the event's `handler_type` and `job_id`
extra attributes (`none` models the uncaught `KeyError` when one is
absent) and select the matching handlers of that type. -/
def get_handlers (event_root : EventRoot) (handlers : Registry) :
    Option (List Handler) := do
  let handler_type ← lookupKey event_root.extra EXTRA_HANDLER
  let _job_id ← lookupKey event_root.extra EXTRA_JOB_ID
  some ((registryGet handlers handler_type).filter
    (fun handler => handlerSelected handler event_root))

/-! ### Application main loop (`src/powny/core/apps/__init__.py`) -/

/-- The outcome of one `self.process()` call inside `Application.run`. -/
inductive Outcome where
  | ok : Outcome
  | interrupt : Outcome
  | err : Outcome
deriving DecidableEq

/-- `Application.run`, driven by the list of outcomes of successive
`process()` calls and by the stop flag as a function of the iteration
index. Returns the sleeps performed (one `failSleep` per caught error)
and `some returnValue` if the method returned within the given outcomes;
`none` means the loop is still running and would call `process()` again. -/
def appRun (maxFails : Option Nat) (failSleep : Int) (stop : Nat → Bool) :
    Nat → Nat → List Outcome → List Int × Option Int
  | i, respawns, outcomes =>
    if stop i then ([], some 0)
    else if (match maxFails with
             | some m => decide (respawns ≥ m + 1)
             | none => false) then
      ([], some (-1))
    else
      match outcomes with
      | [] => ([], none)
      | .ok :: rest => appRun maxFails failSleep stop (i + 1) respawns rest
      | .interrupt :: _ => ([], some 0)
      | .err :: rest =>
          let next := appRun maxFails failSleep stop (i + 1) (respawns + 1) rest
          (failSleep :: next.1, next.2)

/-! ### API resource handler (`src/powny/core/api/__init__.py`) -/

/-- The outcome of `self.process_request(**kwargs)`: a normal
`(result, message)` return, a raised `ApiError(code, message, result)`, or
any other exception (carrying its formatted message). -/
inductive ProcessResult where
  | ok : PyObj → String → ProcessResult
  | apiError : Int → String → PyObj → ProcessResult
  | exc : String → ProcessResult

/-- What `Resource.handler` returns to flask: either a bare dict or a
`(dict, http_code)` pair. -/
inductive HandlerResponse where
  | plain : PyObj → HandlerResponse
  | withCode : PyObj → Int → HandlerResponse

/-- `Resource.handler`: every outcome of `process_request` is converted to
a response, no exception escaping. -/
def Resource.handler : ProcessResult → HandlerResponse
  | .ok result message =>
      .plain (.dict [("status", .str "ok"),
                     ("message", .str message),
                     ("result", result)])
  | .apiError code message result =>
      .withCode (.dict [("status", .str "error"),
                        ("message", .str message),
                        ("result", result)]) code
  | .exc message =>
      .withCode (.dict [("status", .str "error"),
                        ("message", .str message),
                        ("result", .pyNone)]) 500

/-! ### Store lemmas -/

theorem zkExists_iff {s : ZkStore} {p : ZPath} :
    zkExists s p = true ↔ ∃ e ∈ s.nodes, e.1 = p := by
  unfold zkExists
  rw [List.any_eq_true]
  constructor
  · rintro ⟨e, he, hb⟩
    exact ⟨e, he, by rwa [beq_iff_eq] at hb⟩
  · rintro ⟨e, he, hb⟩
    exact ⟨e, he, by rwa [beq_iff_eq]⟩

theorem hasChild_iff {s : ZkStore} {p : ZPath} :
    hasChild s p = true ↔ ∃ e ∈ s.nodes, e.1 ≠ [] ∧ e.1.dropLast = p := by
  unfold hasChild
  rw [List.any_eq_true]
  constructor
  · rintro ⟨e, he, hb⟩
    rw [Bool.and_eq_true] at hb
    refine ⟨e, he, ?_, by rw [← beq_iff_eq (a := e.1.dropLast) (b := p)]; exact hb.2⟩
    intro hnil
    rw [hnil] at hb
    simp at hb
  · rintro ⟨e, he, hne, hdp⟩
    refine ⟨e, he, ?_⟩
    rw [Bool.and_eq_true]
    refine ⟨?_, by rw [beq_iff_eq]; exact hdp⟩
    simp [hne]

theorem delete_some_facts {s s' : ZkStore} {p : ZPath}
    (h : applyOp s (.delete p) = some s') :
    zkExists s p = true ∧ hasChild s p = false ∧
      s'.nodes = s.nodes.filter (fun e => !(e.1 == p)) ∧
      s'.nextSeq = s.nextSeq := by
  simp only [applyOp] at h
  split_ifs at h with hc
  · rw [Bool.and_eq_true] at hc
    obtain ⟨he, hch⟩ := hc
    rw [Option.some_inj] at h
    subst h
    exact ⟨he, by simpa using hch, rfl, rfl⟩

theorem delete_self_absent {s s' : ZkStore} {p : ZPath}
    (h : applyOp s (.delete p) = some s') :
    zkExists s' p = false := by
  obtain ⟨-, -, hn, -⟩ := delete_some_facts h
  rw [Bool.eq_false_iff]
  intro hA
  obtain ⟨e, heMem, heq⟩ := zkExists_iff.mp hA
  rw [hn, List.mem_filter] at heMem
  simp [heq] at heMem

theorem delete_mono {s s' : ZkStore} {p r : ZPath}
    (h : applyOp s (.delete p) = some s') :
    zkExists s' r = true → zkExists s r = true := by
  obtain ⟨-, -, hn, -⟩ := delete_some_facts h
  intro hr
  obtain ⟨e, heMem, heq⟩ := zkExists_iff.mp hr
  rw [hn, List.mem_filter] at heMem
  exact zkExists_iff.mpr ⟨e, heMem.1, heq⟩

theorem wf_delete {s s' : ZkStore} {p : ZPath}
    (hwf : wfStore s = true) (h : applyOp s (.delete p) = some s') :
    wfStore s' = true := by
  obtain ⟨-, hnc, hn, -⟩ := delete_some_facts h
  rw [wfStore, List.all_eq_true]
  intro e heMem
  have heMem' := heMem
  rw [hn, List.mem_filter] at heMem'
  obtain ⟨heS, hneq⟩ := heMem'
  have hbase := (List.all_eq_true.mp hwf) e heS
  rw [Bool.or_eq_true] at hbase
  rcases hbase with hlen | hpar
  · rw [Bool.or_eq_true]
    exact Or.inl hlen
  · rw [Bool.or_eq_true]
    refine Or.inr ?_
    obtain ⟨w, hwMem, hweq⟩ := zkExists_iff.mp hpar
    have hwne : w.1 ≠ p := by
      intro hcontra
      -- then e would be a child of p in s, contradicting hasChild s p = false
      have hdp : e.1.dropLast = p := by rw [← hcontra, hweq]
      have hene : e.1 ≠ [] := by
        intro hnil
        rw [hnil] at hdp
        simp only [List.dropLast_nil] at hdp
        rw [hnil, ← hdp] at hneq
        simp at hneq
      have hch : hasChild s p = true := hasChild_iff.mpr ⟨e, heS, hene, hdp⟩
      rw [hch] at hnc
      cases hnc
    refine zkExists_iff.mpr ⟨w, ?_, hweq⟩
    rw [hn, List.mem_filter]
    exact ⟨hwMem, by simpa using hwne⟩

theorem no_descendant_of_absent {s : ZkStore} {p : ZPath}
    (hwf : wfStore s = true) (hne : p ≠ []) (habs : zkExists s p = false) :
    ∀ r, zkExists s (p ++ r) = false := by
  intro r
  induction r using List.reverseRecOn with
  | nil => simpa using habs
  | append_singleton r a ih =>
      rw [Bool.eq_false_iff]
      intro hA
      obtain ⟨e, heMem, heq⟩ := zkExists_iff.mp hA
      have hwfe := (List.all_eq_true.mp hwf) e heMem
      rw [Bool.or_eq_true] at hwfe
      rcases hwfe with hlen | hpar
      · rw [heq] at hlen
        have hple : 1 ≤ p.length := List.length_pos.mpr hne
        simp at hlen
        omega
      · rw [heq, ← List.append_assoc, List.dropLast_concat] at hpar
        exact absurd hpar (by simp [ih])

/-- The transaction contains only delete operations. -/
def DeletesOnly (ops : List ZOp) : Prop :=
  ∀ op ∈ ops, ∃ q, op = ZOp.delete q

theorem applyTxn_deletes_mono {ops : List ZOp} :
    ∀ {s s' : ZkStore}, DeletesOnly ops → applyTxn s ops = some s' →
      ∀ r, zkExists s' r = true → zkExists s r = true := by
  induction ops with
  | nil =>
      intro s s' _ h r hr
      rw [applyTxn, Option.some_inj] at h
      rwa [h]
  | cons op rest ih =>
      intro s s' hdel h r hr
      rw [applyTxn] at h
      cases hop : applyOp s op with
      | none => rw [hop] at h; cases h
      | some s₁ =>
          rw [hop] at h
          obtain ⟨q, rfl⟩ := hdel op (List.mem_cons_self _ _)
          exact delete_mono hop
            (ih (fun o ho => hdel o (List.mem_cons_of_mem _ ho)) h r hr)

theorem txn_delete_clears {ops : List ZOp} :
    ∀ {s s' : ZkStore} {p : ZPath}, wfStore s = true → DeletesOnly ops →
      ZOp.delete p ∈ ops → p ≠ [] → applyTxn s ops = some s' →
      ∀ r, zkExists s' (p ++ r) = false := by
  induction ops with
  | nil =>
      intro s s' p _ _ hmem
      cases hmem
  | cons op rest ih =>
      intro s s' p hwf hdel hmem hne h r
      rw [applyTxn] at h
      cases hop : applyOp s op with
      | none => rw [hop] at h; cases h
      | some s₁ =>
        rw [hop] at h
        obtain ⟨q, rfl⟩ := hdel op (List.mem_cons_self _ _)
        have hdel' : DeletesOnly rest := fun o ho => hdel o (List.mem_cons_of_mem _ ho)
        have hwf₁ : wfStore s₁ = true := wf_delete hwf hop
        rcases List.mem_cons.mp hmem with heq | hmem'
        · obtain rfl : p = q := by injection heq
          have habs : zkExists s₁ p = false := delete_self_absent hop
          have hclear := no_descendant_of_absent hwf₁ hne habs r
          rw [Bool.eq_false_iff]
          intro hfin
          exact absurd (applyTxn_deletes_mono hdel' h _ hfin) (by simp [hclear])
        · exact ih hwf₁ hdel' hmem' hne h r

theorem removeControlOps_deletes (s : ZkStore) (job_id : String) :
    DeletesOnly (removeControlOps s job_id) := by
  intro op hop
  unfold removeControlOps at hop
  rcases List.mem_append.mp hop with hop | hop
  · rcases List.mem_append.mp hop with hop | hop
    · rcases List.mem_append.mp hop with hop | hop
      · rcases List.mem_singleton.mp hop with rfl
        exact ⟨_, rfl⟩
      · obtain ⟨t, -, hop⟩ := List.mem_flatMap.mp hop
        rcases List.mem_append.mp hop with hop | hop
        · obtain ⟨n, -, rfl⟩ := List.mem_map.mp hop
          exact ⟨_, rfl⟩
        · rcases List.mem_singleton.mp hop with rfl
          exact ⟨_, rfl⟩
    · rcases List.mem_cons.mp hop with rfl | hop
      · exact ⟨_, rfl⟩
      rcases List.mem_cons.mp hop with rfl | hop
      · exact ⟨_, rfl⟩
      rcases List.mem_singleton.mp hop with rfl
      exact ⟨_, rfl⟩
  · split at hop
    · rcases List.mem_singleton.mp hop with rfl
      exact ⟨_, rfl⟩
    · cases hop

theorem removeControlOps_mem_job (s : ZkStore) (job_id : String) :
    ZOp.delete (jobPath job_id) ∈ removeControlOps s job_id := by
  unfold removeControlOps
  simp [List.mem_append]

/-- C1: for every job that the control sweep reaps, after the reap
transaction commits no descendant of `/control/jobs/<job_id>` remains:
every path extending the job path (the task leaf nodes, the tasks
directory, the job lock, `parents`, the `cancel` node if present, and the
job node itself) is absent from the resulting store. -/
theorem remove_control_clears_job (s : ZkStore) (job_id : String) (s' : ZkStore)
    (hwf : wfStore s = true)
    (hcommit : applyTxn s (removeControlOps s job_id) = some s')
    (q : ZPath) (hq : jobPath job_id <+: q) :
    zkExists s' q = false := by
  obtain ⟨r, rfl⟩ := hq
  exact txn_delete_clears hwf (removeControlOps_deletes s job_id)
    (removeControlOps_mem_job s job_id)
    (by simp [jobPath, CONTROL_JOBS_PATH, CONTROL_PATH]) hcommit r

/-- A concrete well-formed store holding one job `j` with one finished
task `t`, as the control sweep sees it just before reaping. -/
def jobStoreC1 : ZkStore :=
  { nodes := [
      (["control"], .raw),
      (["control", "jobs"], .raw),
      (["control", "jobs", "j"], .raw),
      (["control", "jobs", "j", "parents"], .pyNone),
      (["control", "jobs", "j", "lock"], .raw),
      (["control", "jobs", "j", "tasks"], .raw),
      (["control", "jobs", "j", "tasks", "t"], .raw),
      (["control", "jobs", "j", "tasks", "t", "added"], .int 1),
      (["control", "jobs", "j", "tasks", "t", "splitted"], .int 2),
      (["control", "jobs", "j", "tasks", "t", "created"], .int 3),
      (["control", "jobs", "j", "tasks", "t", "recycled"], .pyNone),
      (["control", "jobs", "j", "tasks", "t", "finished"], .int 4),
      (["control", "jobs", "j", "tasks", "t", "status"], .str "finished")],
    nextSeq := 0 }

/-- Witness for C1: on `jobStoreC1` the reap transaction commits and the
job node and its task node are gone. -/
theorem remove_control_clears_job_witness :
    zkExists (commitTxn jobStoreC1 (removeControlOps jobStoreC1 "j"))
      (jobPath "j") = false ∧
    zkExists (commitTxn jobStoreC1 (removeControlOps jobStoreC1 "j"))
      (jobPath "j" ++ [CONTROL_TASKS, "t"]) = false :=
  ⟨remove_control_clears_job jobStoreC1 "j"
      (commitTxn jobStoreC1 (removeControlOps jobStoreC1 "j")) (by rfl) (by rfl)
      (jobPath "j") ⟨[], List.append_nil _⟩,
    remove_control_clears_job jobStoreC1 "j"
      (commitTxn jobStoreC1 (removeControlOps jobStoreC1 "j")) (by rfl) (by rfl)
      (jobPath "j" ++ [CONTROL_TASKS, "t"]) ⟨[CONTROL_TASKS, "t"], rfl⟩⟩

/-! ### setData and sequential-create lemmas -/

theorem setData_some_facts {s s' : ZkStore} {p : ZPath} {d : PyObj}
    (h : applyOp s (.setData p d) = some s') :
    zkExists s p = true ∧
      s'.nodes = s.nodes.map (fun e => if e.1 == p then (p, d) else e) ∧
      s'.nextSeq = s.nextSeq := by
  simp only [applyOp] at h
  split_ifs at h with hc
  rw [Option.some_inj] at h
  subst h
  exact ⟨hc, rfl, rfl⟩

theorem find?_map_set {l : List (ZPath × PyObj)} {p : ZPath} {d : PyObj}
    (hex : l.any (fun e => e.1 == p) = true) :
    (l.map (fun e => if e.1 == p then (p, d) else e)).find? (fun e => e.1 == p) =
      some (p, d) := by
  induction l with
  | nil => cases hex
  | cons e t ih =>
      rw [List.any_cons, Bool.or_eq_true] at hex
      by_cases hhd : (e.1 == p) = true
      · rw [List.map_cons, if_pos hhd,
          @List.find?_cons_of_pos _ (fun e => e.1 == p) (p, d) _ (by simp)]
      · rw [List.map_cons, if_neg hhd,
          @List.find?_cons_of_neg _ (fun e => e.1 == p) e _ hhd]
        exact ih (hex.resolve_left hhd)

theorem find?_map_set_ne {l : List (ZPath × PyObj)} {p r : ZPath} {d : PyObj}
    (hne : r ≠ p) :
    (l.map (fun e => if e.1 == p then (p, d) else e)).find? (fun e => e.1 == r) =
      l.find? (fun e => e.1 == r) := by
  induction l with
  | nil => rfl
  | cons e t ih =>
      by_cases hhd : (e.1 == p) = true
      · have h₁ : ¬(((p, d) : ZPath × PyObj).1 == r) = true := by
          simp only [beq_iff_eq]
          exact fun hc => hne hc.symm
        have h₂ : ¬(e.1 == r) = true := by
          rw [beq_iff_eq] at hhd ⊢
          rw [hhd]
          exact fun hc => hne hc.symm
        rw [List.map_cons, if_pos hhd,
          @List.find?_cons_of_neg _ (fun e => e.1 == r) (p, d) _ h₁,
          @List.find?_cons_of_neg _ (fun e => e.1 == r) e _ h₂]
        exact ih
      · rw [List.map_cons, if_neg hhd]
        by_cases hr : (e.1 == r) = true
        · rw [@List.find?_cons_of_pos _ (fun e => e.1 == r) e _ hr,
            @List.find?_cons_of_pos _ (fun e => e.1 == r) e _ hr]
        · rw [@List.find?_cons_of_neg _ (fun e => e.1 == r) e _ hr,
            @List.find?_cons_of_neg _ (fun e => e.1 == r) e _ hr]
          exact ih

theorem setData_exists {s s' : ZkStore} {p : ZPath} {d : PyObj} {r : ZPath}
    (h : applyOp s (.setData p d) = some s') :
    zkExists s' r = zkExists s r := by
  obtain ⟨-, hn, -⟩ := setData_some_facts h
  show s'.nodes.any (fun e => e.1 == r) = s.nodes.any (fun e => e.1 == r)
  rw [hn, List.any_map]
  have hfun : ((fun e : ZPath × PyObj => e.1 == r) ∘
      (fun e : ZPath × PyObj => if e.1 == p then (p, d) else e)) =
      (fun e : ZPath × PyObj => e.1 == r) := by
    funext e
    by_cases hhd : (e.1 == p) = true
    · rw [beq_iff_eq] at hhd
      simp [Function.comp, hhd]
    · rw [beq_iff_eq] at hhd
      simp [Function.comp, hhd]
  rw [hfun]

theorem setData_lookup_self {s s' : ZkStore} {p : ZPath} {d : PyObj}
    (h : applyOp s (.setData p d) = some s') :
    zkLookup s' p = some d := by
  obtain ⟨hex, hn, -⟩ := setData_some_facts h
  show (s'.nodes.find? (fun e => e.1 == p)).map (fun e => e.2) = some d
  rw [hn, find?_map_set hex]
  rfl

theorem setData_lookup_ne {s s' : ZkStore} {p : ZPath} {d : PyObj} {r : ZPath}
    (h : applyOp s (.setData p d) = some s') (hner : r ≠ p) :
    zkLookup s' r = zkLookup s r := by
  obtain ⟨-, hn, -⟩ := setData_some_facts h
  show (s'.nodes.find? (fun e => e.1 == r)).map (fun e => e.2) =
    (s.nodes.find? (fun e => e.1 == r)).map (fun e => e.2)
  rw [hn, find?_map_set_ne hner]

theorem createSeq_some_facts {s s' : ZkStore} {p : ZPath} {d : PyObj}
    (h : applyOp s (.createSeq p d) = some s') :
    s'.nodes = (p.dropLast ++ [p.getLastD "" ++ padZeros 10 s.nextSeq], d) :: s.nodes ∧
      s'.nextSeq = s.nextSeq + 1 := by
  simp only [applyOp] at h
  split_ifs at h with hc1 hc2
  rw [Option.some_inj] at h
  subst h
  exact ⟨rfl, rfl⟩

/-- C2: for a running task whose record was read back, `_push_back_running`
is a single atomic transaction: if it commits, `/running/<task_id>` is
absent, a fresh `/ready` entry carrying the saved `job_id`, `task_id`,
`handler` and `state` exists, and `recycled` on the control task is set to
the current time; if it does not commit, the store is unchanged — both or
neither. -/
theorem push_back_atomic (cfg : CollectorConfig) (s : ZkStore)
    (task_id job_id : String) (rd handler state : PyObj) (now : Int) (s' : ZkStore)
    (hrd : pget s (runningPath task_id) = .val rd)
    (hj : (dictGet rd RUNNING_JOB_ID).bind asStr = some job_id)
    (hh : dictGet rd RUNNING_HANDLER = some handler)
    (hst : dictGet rd RUNNING_STATE = some state)
    (hrun : pushBackRunning cfg s task_id now = some s') :
    s' = s ∨
    (zkExists s' (runningPath task_id) = false ∧
     zkLookup s' (READY_PATH ++ ["entries", "entry-100-" ++ padZeros 10 s.nextSeq]) =
       some (.dict [(READY_JOB_ID, .str job_id), (READY_TASK_ID, .str task_id),
                    (READY_HANDLER, handler), (READY_STATE, state)]) ∧
     zkLookup s' (taskNodePath job_id task_id CONTROL_TASK_RECYCLED) =
       some (.int now)) := by
  unfold pushBackRunning at hrun
  simp only [hrd] at hrun
  have hops : pushBackRunningOps cfg rd task_id now =
      some [ZOp.delete (runningPath task_id ++ [RUNNING_LOCK]),
            ZOp.delete (runningPath task_id),
            lq_put READY_PATH (.dict [(READY_JOB_ID, .str job_id),
                                      (READY_TASK_ID, .str task_id),
                                      (READY_HANDLER, handler),
                                      (READY_STATE, state)]),
            ZOp.setData (taskNodePath job_id task_id CONTROL_TASK_RECYCLED)
              (.int now)] := by
    simp [pushBackRunningOps, hj, hh, hst]
  rw [hops] at hrun
  rw [Option.map_some', Option.some_inj] at hrun
  subst hrun
  unfold commitTxn
  cases happ : applyTxn s
      [ZOp.delete (runningPath task_id ++ [RUNNING_LOCK]),
       ZOp.delete (runningPath task_id),
       lq_put READY_PATH (.dict [(READY_JOB_ID, .str job_id),
                                 (READY_TASK_ID, .str task_id),
                                 (READY_HANDLER, handler),
                                 (READY_STATE, state)]),
       ZOp.setData (taskNodePath job_id task_id CONTROL_TASK_RECYCLED)
         (.int now)] with
  | none => exact Or.inl rfl
  | some sfin =>
      simp only [Option.getD_some]
      refine Or.inr ?_
      simp only [applyTxn] at happ
      cases h1 : applyOp s (ZOp.delete (runningPath task_id ++ [RUNNING_LOCK])) with
      | none => simp only [h1] at happ; exact Option.noConfusion happ
      | some s₁ =>
        simp only [h1] at happ
        cases h2 : applyOp s₁ (ZOp.delete (runningPath task_id)) with
        | none => simp only [h2] at happ; exact Option.noConfusion happ
        | some s₂ =>
          simp only [h2] at happ
          cases h3 : applyOp s₂ (lq_put READY_PATH
              (.dict [(READY_JOB_ID, .str job_id), (READY_TASK_ID, .str task_id),
                      (READY_HANDLER, handler), (READY_STATE, state)])) with
          | none => simp only [h3] at happ; exact Option.noConfusion happ
          | some s₃ =>
            simp only [h3] at happ
            cases h4 : applyOp s₃ (ZOp.setData
                (taskNodePath job_id task_id CONTROL_TASK_RECYCLED) (.int now)) with
            | none => simp only [h4] at happ; exact Option.noConfusion happ
            | some s₄ =>
              simp only [h4] at happ
              rw [Option.some_inj] at happ
              subst happ
              have hseq₁ : s₁.nextSeq = s.nextSeq := (delete_some_facts h1).2.2.2
              have hseq₂ : s₂.nextSeq = s.nextSeq :=
                ((delete_some_facts h2).2.2.2).trans hseq₁
              have hrun₂ : zkExists s₂ (runningPath task_id) = false :=
                delete_self_absent h2
              have h3' : applyOp s₂ (ZOp.createSeq
                  (READY_PATH ++ ["entries", "entry-" ++ padZeros 3 100 ++ "-"])
                  (.dict [(READY_JOB_ID, .str job_id), (READY_TASK_ID, .str task_id),
                          (READY_HANDLER, handler), (READY_STATE, state)])) =
                  some s₃ := h3
              obtain ⟨hnodes₃, -⟩ := createSeq_some_facts h3'
              rw [hseq₂] at hnodes₃
              have hnodes₃' : s₃.nodes =
                  (READY_PATH ++ ["entries", "entry-100-" ++ padZeros 10 s.nextSeq],
                   (PyObj.dict [(READY_JOB_ID, .str job_id),
                                (READY_TASK_ID, .str task_id),
                                (READY_HANDLER, handler),
                                (READY_STATE, state)])) :: s₂.nodes := by
                rw [hnodes₃]
                rfl
              have hrun₃ : zkExists s₃ (runningPath task_id) = false := by
                show (s₃.nodes.any fun e => e.1 == runningPath task_id) = false
                rw [hnodes₃', List.any_cons,
                  show (s₂.nodes.any fun e => e.1 == runningPath task_id) = false
                    from hrun₂]
                have hne : ((READY_PATH ++
                    ["entries", "entry-100-" ++ padZeros 10 s.nextSeq] : ZPath) ==
                    runningPath task_id) = false := by
                  rw [beq_eq_false_iff_ne]
                  intro hc
                  exact absurd (congrArg List.length hc)
                    (by simp [READY_PATH, runningPath, RUNNING_PATH])
                rw [hne]
                rfl
              have hlk₃ : zkLookup s₃
                  (READY_PATH ++ ["entries", "entry-100-" ++ padZeros 10 s.nextSeq]) =
                  some (.dict [(READY_JOB_ID, .str job_id),
                               (READY_TASK_ID, .str task_id),
                               (READY_HANDLER, handler),
                               (READY_STATE, state)]) := by
                show ((s₃.nodes.find? fun e =>
                    e.1 == READY_PATH ++
                      ["entries", "entry-100-" ++ padZeros 10 s.nextSeq]).map
                    fun e => e.2) = _
                have hfind : (((READY_PATH ++
                    ["entries", "entry-100-" ++ padZeros 10 s.nextSeq],
                    PyObj.dict [(READY_JOB_ID, .str job_id),
                                (READY_TASK_ID, .str task_id),
                                (READY_HANDLER, handler),
                                (READY_STATE, state)]) :: s₂.nodes).find? fun e =>
                    e.1 == READY_PATH ++
                      ["entries", "entry-100-" ++ padZeros 10 s.nextSeq]) =
                    some (READY_PATH ++
                      ["entries", "entry-100-" ++ padZeros 10 s.nextSeq],
                      PyObj.dict [(READY_JOB_ID, .str job_id),
                                  (READY_TASK_ID, .str task_id),
                                  (READY_HANDLER, handler),
                                  (READY_STATE, state)]) :=
                  List.find?_cons_of_pos _ (by simp)
                rw [hnodes₃', hfind]
                rfl
              have hne₂ : (READY_PATH ++
                  ["entries", "entry-100-" ++ padZeros 10 s.nextSeq] : ZPath) ≠
                  taskNodePath job_id task_id CONTROL_TASK_RECYCLED := by
                intro hc
                exact absurd (congrArg List.length hc)
                  (by simp [READY_PATH, taskNodePath, jobPath,
                    CONTROL_JOBS_PATH, CONTROL_PATH])
              refine ⟨?_, ?_, ?_⟩
              · rw [← hrun₃]
                exact setData_exists h4
              · rw [← hlk₃]
                exact setData_lookup_ne h4 hne₂
              · exact setData_lookup_self h4

/-! ### Rule matcher lemmas -/

/-- Specification-side reading of filter matching: every declared filter
key is present in the mapping and its comparator succeeds with `True`. -/
def FiltersPass (filters : List (String × Comparator))
    (event : List (String × PyObj)) : Prop :=
  ∀ kc ∈ filters, ∃ v, lookupKey event kc.1 = some v ∧
    rulesCompare kc.2 v = .ok true

theorem checkMatch_iff {filters : List (String × Comparator)}
    {event : List (String × PyObj)} :
    checkMatch filters event = true ↔ FiltersPass filters event := by
  unfold checkMatch FiltersPass
  rw [List.all_eq_true]
  constructor
  · intro h kc hkc
    have hb := h kc hkc
    cases hl : lookupKey event kc.1 with
    | none =>
        simp only [hl] at hb
        exact Bool.noConfusion hb
    | some v =>
        simp only [hl] at hb
        cases hcmp : rulesCompare kc.2 v with
        | ok b =>
            simp only [hcmp] at hb
            rw [hb] at hcmp
            exact ⟨v, rfl, hcmp⟩
        | error e =>
            simp only [hcmp] at hb
            exact Bool.noConfusion hb
  · intro h kc hkc
    obtain ⟨v, hv, hcmp⟩ := h kc hkc
    simp only [hv, hcmp]

theorem handlerSelected_iff {handler : Handler} {event_root : EventRoot} :
    handlerSelected handler event_root = true ↔
      (handler.disabled = false ∧
       FiltersPass handler.event_filters event_root.attrs ∧
       FiltersPass handler.extra_filters event_root.extra) := by
  unfold handlerSelected
  by_cases hd : handler.disabled = true
  · rw [if_pos hd]
    simp [hd]
  · rw [if_neg hd]
    rw [Bool.not_eq_true] at hd
    by_cases hz : (handler.event_filters.length + handler.extra_filters.length == 0) = true
    · rw [if_pos hz]
      rw [beq_iff_eq, Nat.add_eq_zero] at hz
      have hev : handler.event_filters = [] := List.length_eq_zero.mp hz.1
      have hex : handler.extra_filters = [] := List.length_eq_zero.mp hz.2
      simp [hd, hev, hex, FiltersPass]
    · rw [if_neg hz]
      rw [Bool.and_eq_true, checkMatch_iff, checkMatch_iff]
      simp [hd]

/-- C4: `get_handlers` returns exactly the handlers registered under the
event's `handler_type` that are not disabled and pass every declared
event-attribute filter and every declared extra-attribute filter; no
filters means unconditional selection, and a filter key missing from the
mapping means rejection (`FiltersPass` demands a present key). -/
theorem get_handlers_spec (event_root : EventRoot) (handlers : Registry)
    (handler_type : PyObj)
    (hht : lookupKey event_root.extra EXTRA_HANDLER = some handler_type)
    (hjid : (lookupKey event_root.extra EXTRA_JOB_ID).isSome = true) :
    ∃ selected, get_handlers event_root handlers = some selected ∧
      ∀ handler, handler ∈ selected ↔
        (handler ∈ registryGet handlers handler_type ∧
         handler.disabled = false ∧
         FiltersPass handler.event_filters event_root.attrs ∧
         FiltersPass handler.extra_filters event_root.extra) := by
  obtain ⟨j, hj⟩ := Option.isSome_iff_exists.mp hjid
  refine ⟨(registryGet handlers handler_type).filter
      (fun handler => handlerSelected handler event_root), ?_, ?_⟩
  · simp [get_handlers, hht, hj]
  · intro handler
    rw [List.mem_filter, handlerSelected_iff]

/-- Witness data for C4: a filterless enabled handler under tag `t`. -/
def hC4 : Handler := ⟨0, false, [], []⟩

def evC4 : EventRoot :=
  ⟨[("src", .str "a")], [("handler", .str "t"), ("job_id", .str "job1")]⟩

def regC4 : Registry := [(.str "t", [hC4])]

/-- Witness for C4: the filterless handler is selected. -/
theorem get_handlers_spec_witness :
    hC4 ∈ (get_handlers evC4 regC4).getD [] := by
  obtain ⟨selected, hsel, hiff⟩ := get_handlers_spec evC4 regC4 (.str "t") rfl rfl
  rw [hsel]
  simp only [Option.getD_some]
  refine (hiff hC4).mpr ⟨List.Mem.head _, rfl, ?_, ?_⟩
  · rintro kc hkc
    exact absurd hkc (by simp [hC4])
  · rintro kc hkc
    exact absurd hkc (by simp [hC4])

/-- C5: a comparator that raises during `compare` makes the handler fail
the match (it is excluded from the selection) and `get_handlers` still
returns a value — the `ComparsionError` never propagates. -/
theorem comparator_error_rejected (event_root : EventRoot) (handlers : Registry)
    (handler : Handler) (k : String) (c : Comparator) (v : PyObj)
    (hht : (lookupKey event_root.extra EXTRA_HANDLER).isSome = true)
    (hjid : (lookupKey event_root.extra EXTRA_JOB_ID).isSome = true)
    (hmem : (k, c) ∈ handler.event_filters)
    (hv : lookupKey event_root.attrs k = some v)
    (herr : rulesCompare c v = .error ()) :
    ∃ selected, get_handlers event_root handlers = some selected ∧
      handler ∉ selected := by
  obtain ⟨ht, hht'⟩ := Option.isSome_iff_exists.mp hht
  obtain ⟨j, hj⟩ := Option.isSome_iff_exists.mp hjid
  refine ⟨(registryGet handlers ht).filter
      (fun handler => handlerSelected handler event_root),
    by simp [get_handlers, hht', hj], ?_⟩
  intro hcontra
  rw [List.mem_filter] at hcontra
  have hsel := hcontra.2
  rw [handlerSelected_iff] at hsel
  obtain ⟨-, hpass, -⟩ := hsel
  obtain ⟨v', hv', hcmp⟩ := hpass (k, c) hmem
  rw [hv, Option.some_inj] at hv'
  subst hv'
  rw [herr] at hcmp
  cases hcmp

/-- Witness data for C5: a handler whose only filter raises on compare. -/
def hC5 : Handler :=
  ⟨0, false, [("src", .custom (fun _ => .error ()) .pyNone)], []⟩

def evC5 : EventRoot :=
  ⟨[("src", .str "a")], [("handler", .str "t"), ("job_id", .str "job1")]⟩

def regC5 : Registry := [(.str "t", [hC5])]

/-- Witness for C5: the raising handler is excluded, no error escapes. -/
theorem comparator_error_rejected_witness :
    hC5 ∉ (get_handlers evC5 regC5).getD [hC5] := by
  obtain ⟨selected, hsel, hnot⟩ := comparator_error_rejected evC5 regC5 hC5 "src"
      (.custom (fun _ => .error ()) .pyNone) (.str "a") rfl rfl
      (List.Mem.head _) rfl rfl
  rw [hsel]
  simpa using hnot

/-- C9: an event whose `handler_type` is not a key of the registry yields
the empty selection and no error. -/
theorem get_handlers_unknown_type (event_root : EventRoot) (handlers : Registry)
    (handler_type : PyObj)
    (hht : lookupKey event_root.extra EXTRA_HANDLER = some handler_type)
    (hjid : (lookupKey event_root.extra EXTRA_JOB_ID).isSome = true)
    (hmiss : handlers.find? (fun e => e.1 == handler_type) = none) :
    get_handlers event_root handlers = some [] := by
  obtain ⟨j, hj⟩ := Option.isSome_iff_exists.mp hjid
  simp [get_handlers, hht, hj, registryGet, hmiss]

def evC9 : EventRoot :=
  ⟨[], [("handler", .str "nope"), ("job_id", .str "job1")]⟩

/-- Witness for C9 on an empty registry. -/
theorem get_handlers_unknown_type_witness :
    get_handlers evC9 ([] : Registry) = some [] :=
  get_handlers_unknown_type evC9 [] (.str "nope") rfl rfl rfl

/-- C3: the running sweep skips (without any lock attempt, requeue or
removal) every task whose control record is readable and whose
`max(created, recycled) + delay` exceeds the current time. -/
theorem poll_running_skips_young (s : ZkStore) (task_id job_id : String)
    (rd c r : PyObj) (cv rv delay now : Int)
    (hrd : pget s (runningPath task_id) = .val rd)
    (hjid : (dictGet rd RUNNING_JOB_ID).bind asStr = some job_id)
    (hc : pget s (taskNodePath job_id task_id CONTROL_TASK_CREATED) = .val c)
    (hr : pget s (taskNodePath job_id task_id CONTROL_TASK_RECYCLED) = .val r)
    (hcv : timeVal c = some cv) (hrv : timeVal r = some rv)
    (hyoung : max cv rv + delay > now) :
    pollRunningTask s task_id delay now = some .skip := by
  unfold pollRunningTask
  simp only [hrd, hjid, hc, hr, hcv, hrv]
  rw [if_pos hyoung]

/-- Witness data for C3: a running task recently created. -/
def runStoreC3 : ZkStore :=
  { nodes := [
      (["running"], .raw),
      (["running", "t"],
        .dict [("job_id", .str "j"), ("handler", .str "h"), ("state", .pyNone)]),
      (["running", "t", "lock"], .raw),
      (["control"], .raw),
      (["control", "jobs"], .raw),
      (["control", "jobs", "j"], .raw),
      (["control", "jobs", "j", "tasks"], .raw),
      (["control", "jobs", "j", "tasks", "t"], .raw),
      (["control", "jobs", "j", "tasks", "t", "created"], .int 100),
      (["control", "jobs", "j", "tasks", "t", "recycled"], .pyNone)],
    nextSeq := 0 }

/-- Witness for C3: created at 100, delay 10, now 105 — skipped. -/
theorem poll_running_skips_young_witness :
    pollRunningTask runStoreC3 "t" 10 105 = some .skip :=
  poll_running_skips_young runStoreC3 "t" "j"
    (.dict [("job_id", .str "j"), ("handler", .str "h"), ("state", .pyNone)])
    (.int 100) .pyNone 100 0 10 105 rfl rfl rfl rfl rfl rfl (by norm_num)

/-- Witness data for C2: a running task `t` of job `j` whose ephemeral lock
session has died, with the ready queue and control task prepared. -/
def runStoreC2 : ZkStore :=
  { nodes := [
      (["running"], .raw),
      (["running", "t"],
        .dict [("job_id", .str "j"), ("handler", .str "h"), ("state", .pyNone)]),
      (["running", "t", "lock"], .raw),
      (["ready"], .raw),
      (["ready", "entries"], .raw),
      (["control"], .raw),
      (["control", "jobs"], .raw),
      (["control", "jobs", "j"], .raw),
      (["control", "jobs", "j", "tasks"], .raw),
      (["control", "jobs", "j", "tasks", "t"], .raw),
      (["control", "jobs", "j", "tasks", "t", "recycled"], .pyNone)],
    nextSeq := 0 }

def cfgC2 : CollectorConfig := ⟨1, 5, 50⟩

/-- The store after the witness requeue commits. -/
def pbResultC2 : ZkStore :=
  (pushBackRunning cfgC2 runStoreC2 "t" 7).getD runStoreC2

/-- Witness for C2: after the requeue, the running node is gone and
`recycled` is set to the current time. -/
theorem push_back_atomic_witness :
    zkExists pbResultC2 (runningPath "t") = false ∧
    zkLookup pbResultC2 (taskNodePath "j" "t" CONTROL_TASK_RECYCLED) =
      some (.int 7) := by
  rcases push_back_atomic cfgC2 runStoreC2 "t" "j"
      (.dict [("job_id", .str "j"), ("handler", .str "h"), ("state", .pyNone)])
      (.str "h") .pyNone 7 pbResultC2 rfl rfl rfl rfl rfl with h | ⟨h1, h2, h3⟩
  · exact absurd (congrArg (fun st => zkExists st (runningPath "t")) h) (by decide)
  · exact ⟨h1, h3⟩

/-- C8: the `recycled_priority` constructor argument has no effect on the
requeue transaction — any two configurations produce the same operations,
and the `/ready` entry is enqueued with the `lq_put` default priority 100
(sequential node name prefix `entry-100-`). -/
theorem recycled_priority_unused (cfg₁ cfg₂ : CollectorConfig) (rd : PyObj)
    (task_id job_id : String) (handler state : PyObj) (now : Int)
    (hj : (dictGet rd RUNNING_JOB_ID).bind asStr = some job_id)
    (hh : dictGet rd RUNNING_HANDLER = some handler)
    (hst : dictGet rd RUNNING_STATE = some state) :
    pushBackRunningOps cfg₁ rd task_id now = pushBackRunningOps cfg₂ rd task_id now ∧
    pushBackRunningOps cfg₁ rd task_id now =
      some [ZOp.delete (runningPath task_id ++ [RUNNING_LOCK]),
            ZOp.delete (runningPath task_id),
            ZOp.createSeq (READY_PATH ++ ["entries", "entry-100-"])
              (.dict [(READY_JOB_ID, .str job_id), (READY_TASK_ID, .str task_id),
                      (READY_HANDLER, handler), (READY_STATE, state)]),
            ZOp.setData (taskNodePath job_id task_id CONTROL_TASK_RECYCLED)
              (.int now)] := by
  refine ⟨rfl, ?_⟩
  simp only [pushBackRunningOps, hj, hh, hst, Option.bind_some]
  rfl

def rdC8 : PyObj :=
  .dict [("job_id", .str "j"), ("handler", .str "h"), ("state", .pyNone)]

def cfgC8a : CollectorConfig := ⟨1, 5, 7⟩
def cfgC8b : CollectorConfig := ⟨1, 5, 999⟩

/-- Witness for C8 at two distinct `recycled_priority` values. -/
theorem recycled_priority_unused_witness :
    pushBackRunningOps cfgC8a rdC8 "t" 3 = pushBackRunningOps cfgC8b rdC8 "t" 3 ∧
    pushBackRunningOps cfgC8a rdC8 "t" 3 =
      some [ZOp.delete (runningPath "t" ++ [RUNNING_LOCK]),
            ZOp.delete (runningPath "t"),
            ZOp.createSeq (READY_PATH ++ ["entries", "entry-100-"])
              (.dict [(READY_JOB_ID, .str "j"), (READY_TASK_ID, .str "t"),
                      (READY_HANDLER, .str "h"), (READY_STATE, .pyNone)]),
            ZOp.setData (taskNodePath "j" "t" CONTROL_TASK_RECYCLED) (.int 3)] :=
  recycled_priority_unused cfgC8a cfgC8b rdC8 "t" "j" (.str "h") .pyNone 3
    rfl rfl rfl

/-! ### Counter lemmas (C6) -/

theorem zkSet_eq_applyOp {s : ZkStore} {p : ZPath} {d : PyObj} :
    zkSet s p d = applyOp s (.setData p d) := rfl

theorem zkExists_of_lookup {s : ZkStore} {p : ZPath} {v : PyObj}
    (h : zkLookup s p = some v) : zkExists s p = true := by
  unfold zkLookup at h
  cases hf : s.nodes.find? (fun e => e.1 == p) with
  | none => rw [hf] at h; cases h
  | some e =>
      have hp := List.find?_some hf
      have hm := List.mem_of_find?_eq_some hf
      exact zkExists_iff.mpr ⟨e, hm, by rwa [beq_iff_eq] at hp⟩

theorem lookup_isSome_of_exists {s : ZkStore} {p : ZPath}
    (h : zkExists s p = true) : ∃ v, zkLookup s p = some v := by
  obtain ⟨e, he, heq⟩ := zkExists_iff.mp h
  unfold zkLookup
  cases hf : s.nodes.find? (fun e => e.1 == p) with
  | none =>
      rw [List.find?_eq_none] at hf
      exact absurd (by rw [beq_iff_eq]; exact heq) (hf e he)
  | some e' => exact ⟨e'.2, rfl⟩

theorem ensure_lookup_preserve {s : ZkStore} {q r : ZPath} {v : PyObj}
    (h : zkLookup s r = some v) : zkLookup (ensureNode s q) r = some v := by
  unfold ensureNode
  split_ifs with hq
  · exact h
  · show ((((q, PyObj.raw) :: s.nodes).find? fun e => e.1 == r).map
      fun e => e.2) = some v
    by_cases hqr : (((q, PyObj.raw) : ZPath × PyObj).1 == r) = true
    · rw [beq_iff_eq] at hqr
      simp only at hqr
      subst hqr
      exact absurd (zkExists_of_lookup h) (by simpa using hq)
    · rw [@List.find?_cons_of_neg _ (fun e => e.1 == r) (q, PyObj.raw) _ hqr]
      exact h

theorem ensure_exists_self {s : ZkStore} {q : ZPath} :
    zkExists (ensureNode s q) q = true := by
  unfold ensureNode
  split_ifs with hq
  · exact hq
  · show (((q, PyObj.raw) :: s.nodes).any fun e => e.1 == q) = true
    rw [List.any_cons]
    simp

theorem ensure_exists_mono {s : ZkStore} {q r : ZPath}
    (h : zkExists s r = true) : zkExists (ensureNode s q) r = true := by
  unfold ensureNode
  split_ifs with hq
  · exact h
  · show (((q, PyObj.raw) :: s.nodes).any fun e => e.1 == r) = true
    rw [List.any_cons]
    rw [show (s.nodes.any fun e => e.1 == r) = true from h]
    simp

theorem ensure_lookup_cases {s : ZkStore} {q r : ZPath} :
    zkLookup (ensureNode s q) r = zkLookup s r ∨
    zkLookup (ensureNode s q) r = some .raw := by
  unfold ensureNode
  split_ifs with hq
  · exact Or.inl rfl
  · by_cases hqr : (((q, PyObj.raw) : ZPath × PyObj).1 == r) = true
    · refine Or.inr ?_
      show ((((q, PyObj.raw) :: s.nodes).find? fun e => e.1 == r).map
        fun e => e.2) = some PyObj.raw
      rw [@List.find?_cons_of_pos _ (fun e => e.1 == r) (q, PyObj.raw) _ hqr]
      rfl
    · refine Or.inl ?_
      show ((((q, PyObj.raw) :: s.nodes).find? fun e => e.1 == r).map
        fun e => e.2) = zkLookup s r
      rw [@List.find?_cons_of_neg _ (fun e => e.1 == r) (q, PyObj.raw) _ hqr]
      rfl

theorem foldl_ensure_preserve {l : List ZPath} :
    ∀ {s : ZkStore} {r : ZPath} {v : PyObj}, zkLookup s r = some v →
      zkLookup (l.foldl ensureNode s) r = some v := by
  induction l with
  | nil => intro s r v h; exact h
  | cons q t ih => intro s r v h; exact ih (ensure_lookup_preserve h)

theorem foldl_ensure_exists_mono {l : List ZPath} :
    ∀ {s : ZkStore} {r : ZPath}, zkExists s r = true →
      zkExists (l.foldl ensureNode s) r = true := by
  induction l with
  | nil => intro s r h; exact h
  | cons q t ih => intro s r h; exact ih (ensure_exists_mono h)

theorem foldl_ensure_mem {l : List ZPath} :
    ∀ {s : ZkStore} {r : ZPath}, r ∈ l →
      zkExists (l.foldl ensureNode s) r = true := by
  induction l with
  | nil => intro s r h; cases h
  | cons q t ih =>
      intro s r h
      rcases List.mem_cons.mp h with rfl | h'
      · rw [List.foldl_cons]
        exact foldl_ensure_exists_mono ensure_exists_self
      · exact ih h'

theorem foldl_ensure_lookup_cases {l : List ZPath} :
    ∀ {s : ZkStore} {r : ZPath},
      zkLookup (l.foldl ensureNode s) r = zkLookup s r ∨
      zkLookup (l.foldl ensureNode s) r = some .raw := by
  induction l with
  | nil => intro s r; exact Or.inl rfl
  | cons q t ih =>
      intro s r
      rw [List.foldl_cons]
      rcases @ih (ensureNode s q) r with h | h
      · rw [h]; exact ensure_lookup_cases
      · exact Or.inr h

theorem mem_ancestorChain_append {p : ZPath} {x : String} (hne : p ≠ []) :
    p ∈ ancestorChain (p ++ [x]) := by
  unfold ancestorChain
  rw [List.mem_map]
  refine ⟨p.length - 1, ?_, ?_⟩
  · rw [List.mem_range]
    have := List.length_pos.mpr hne
    simp only [List.length_append, List.length_cons, List.length_nil]
    omega
  · have h1 : p.length - 1 + 1 = p.length :=
      Nat.succ_pred_eq_of_pos (List.length_pos.mpr hne)
    rw [h1]
    exact List.take_left p [x]

/-- Is the stored counter payload an integer (or missing/empty, read as 0)?
Any other payload makes Python raise `TypeError` on `value + 1`. -/
def counterReadable (s : ZkStore) (path : ZPath) : Bool :=
  match pget s path with
  | .val (.int _) => true
  | .val _ => false
  | _ => true

/-- The integer value `increment` reads: the stored integer, with an
absent or empty node read as 0. -/
def storedCounter (s : ZkStore) (path : ZPath) : Int :=
  match pget s path with
  | .val (.int n) => n
  | _ => 0

theorem zkSet_s2 {s₁ : ZkStore} {path : ZPath} {d : PyObj}
    (hex : zkExists s₁ path = true) :
    ∃ s₂, zkSet s₁ path d = some s₂ ∧ zkLookup s₂ path = some d := by
  cases hzs : zkSet s₁ path d with
  | none =>
      unfold zkSet at hzs
      rw [if_pos hex] at hzs
      cases hzs
  | some s₂ =>
      refine ⟨s₂, rfl, ?_⟩
      exact setData_lookup_self (zkSet_eq_applyOp ▸ hzs)

theorem increment_eval_int {s : ZkStore} {path : ZPath} {n : Int}
    (hget : pget (ensurePath s (path ++ [LOCK])) path = .val (.int n)) :
    increment s path =
      (zkSet (ensurePath s (path ++ [LOCK])) path (.int (n + 1))).map
        (fun s₂ => (n, s₂)) := by
  simp only [increment, hget]

theorem increment_eval_raw {s : ZkStore} {path : ZPath}
    (hget : pget (ensurePath s (path ++ [LOCK])) path = .notPickled) :
    increment s path =
      (zkSet (ensurePath s (path ++ [LOCK])) path (.int (0 + 1))).map
        (fun s₂ => (0, s₂)) := by
  simp only [increment, hget]

theorem storedCounter_of_lookup {s : ZkStore} {path : ZPath} {n : Int}
    (h : zkLookup s path = some (.int n)) : storedCounter s path = n := by
  unfold storedCounter pget
  rw [h]

theorem counterReadable_of_lookup {s : ZkStore} {path : ZPath} {n : Int}
    (h : zkLookup s path = some (.int n)) : counterReadable s path = true := by
  unfold counterReadable pget
  rw [h]

theorem increment_core (s : ZkStore) (path : ZPath) (hne : path ≠ [])
    (hr : counterReadable s path = true) :
    ∃ s₂, increment s path = some (storedCounter s path, s₂) ∧
      zkLookup s₂ path = some (.int (storedCounter s path + 1)) := by
  have hex₁ : zkExists (ensurePath s (path ++ [LOCK])) path = true := by
    unfold ensurePath
    exact foldl_ensure_mem (mem_ancestorChain_append hne)
  have hcase : (∃ v, zkLookup s path = some v ∧
      zkLookup (ensurePath s (path ++ [LOCK])) path = some v) ∨
      (zkLookup s path = none ∧
       zkLookup (ensurePath s (path ++ [LOCK])) path = some .raw) := by
    cases hlk : zkLookup s path with
    | some v =>
        refine Or.inl ⟨v, rfl, ?_⟩
        unfold ensurePath
        exact foldl_ensure_preserve hlk
    | none =>
        refine Or.inr ⟨rfl, ?_⟩
        obtain ⟨v, hv⟩ := lookup_isSome_of_exists hex₁
        rcases @foldl_ensure_lookup_cases (ancestorChain (path ++ [LOCK])) s path
            with h | h
        · unfold ensurePath at hv
          rw [h, hlk] at hv
          cases hv
        · unfold ensurePath
          exact h
  rcases hcase with ⟨v, hvs, hv₁⟩ | ⟨hvs, hv₁⟩
  · cases v with
    | int n =>
        have hsc : storedCounter s path = n := by
          unfold storedCounter pget
          rw [hvs]
        obtain ⟨s₂, hset, hlook⟩ := @zkSet_s2 (ensurePath s (path ++ [LOCK])) path
          (PyObj.int (n + 1)) hex₁
        refine ⟨s₂, ?_, ?_⟩
        · rw [increment_eval_int (by unfold pget; rw [hv₁]), hset, hsc]
          rfl
        · rw [hsc]
          exact hlook
    | raw =>
        have hsc : storedCounter s path = 0 := by
          unfold storedCounter pget
          rw [hvs]
        obtain ⟨s₂, hset, hlook⟩ := @zkSet_s2 (ensurePath s (path ++ [LOCK])) path
          (PyObj.int (0 + 1)) hex₁
        refine ⟨s₂, ?_, ?_⟩
        · rw [increment_eval_raw (by unfold pget; rw [hv₁]), hset, hsc]
          rfl
        · rw [hsc]
          exact hlook
    | pyNone =>
        have hcontra : counterReadable s path = false := by
          unfold counterReadable pget
          rw [hvs]
        rw [hcontra] at hr
        exact Bool.noConfusion hr
    | str a =>
        have hcontra : counterReadable s path = false := by
          unfold counterReadable pget
          rw [hvs]
        rw [hcontra] at hr
        exact Bool.noConfusion hr
    | dict xs =>
        have hcontra : counterReadable s path = false := by
          unfold counterReadable pget
          rw [hvs]
        rw [hcontra] at hr
        exact Bool.noConfusion hr
  · have hsc : storedCounter s path = 0 := by
      unfold storedCounter pget
      rw [hvs]
    obtain ⟨s₂, hset, hlook⟩ := @zkSet_s2 (ensurePath s (path ++ [LOCK])) path
      (PyObj.int (0 + 1)) hex₁
    refine ⟨s₂, ?_, ?_⟩
    · rw [increment_eval_raw (by unfold pget; rw [hv₁]), hset, hsc]
      rfl
    · rw [hsc]
      exact hlook

/-- C6: `IncrementalCounter.increment` under the coarse lock reads the
stored integer (absent or empty node read as 0), writes back that value
plus one, and returns the pre-increment value; a second increment on the
resulting store reads and returns exactly one more — the counter is
strictly monotonic across successful increments. -/
theorem increment_spec (s : ZkStore) (path : ZPath) (hne : path ≠ [])
    (hr : counterReadable s path = true) :
    ∃ s₂ s₃, increment s path = some (storedCounter s path, s₂) ∧
      storedCounter s₂ path = storedCounter s path + 1 ∧
      increment s₂ path = some (storedCounter s path + 1, s₃) := by
  obtain ⟨s₂, hinc, hlook⟩ := increment_core s path hne hr
  have hsc₂ : storedCounter s₂ path = storedCounter s path + 1 :=
    storedCounter_of_lookup hlook
  have hr₂ : counterReadable s₂ path = true :=
    counterReadable_of_lookup hlook
  obtain ⟨s₃, hinc₂, -⟩ := increment_core s₂ path hne hr₂
  rw [hsc₂] at hinc₂
  exact ⟨s₂, s₃, hinc, hsc₂, hinc₂⟩

/-- Witness data for C6: the counter node as `zoo.init` leaves it. -/
def coreStoreC6 : ZkStore :=
  { nodes := [(["core"], .raw), (["core", "jobs_counter"], .raw)], nextSeq := 0 }

/-- Witness for C6: the first increment of the fresh counter returns 0. -/
theorem increment_spec_witness :
    (increment coreStoreC6 JOBS_COUNTER_PATH).map (fun v => v.1) = some 0 := by
  obtain ⟨s₂, s₃, h1, h2, h3⟩ :=
    increment_spec coreStoreC6 JOBS_COUNTER_PATH (by simp [JOBS_COUNTER_PATH, CORE_PATH]) rfl
  rw [h1]
  rfl

/-- C7 (divergence evaluation): with `max_fails = 1` and the stop flag
never set, one failing `process()` call does not make `run` return — the
loop logs, sleeps `fail_sleep` once and calls `process()` again; only
after `max_fails + 1 = 2` consecutive failures does `run` return -1. The
`max_fails` option's own help text ("Number of failures after which the
program terminates") and the spec promise termination after `max_fails`
failures, so the `self._respawns >= max_fails + 1` guard is off by one. -/
theorem app_run_off_by_one :
    appRun (some 1) 5 (fun _ => false) 0 0 [.err] = ([5], none) ∧
    appRun (some 1) 5 (fun _ => false) 0 0 [.err, .err] = ([5, 5], some (-1)) := by
  constructor
  · rfl
  · rfl

/-- C10: `Resource.handler` never propagates an outcome of
`process_request`: a normal return becomes the bare status-ok dict with
the message and result; a raised `ApiError` becomes an error dict paired
with the error's own code; any other exception becomes an error dict
paired with HTTP code 500. -/
theorem resource_handler_spec (result : PyObj) (message excMessage : String)
    (code : Int) :
    Resource.handler (.ok result message) =
      .plain (.dict [("status", .str "ok"), ("message", .str message),
                     ("result", result)]) ∧
    Resource.handler (.apiError code message result) =
      .withCode (.dict [("status", .str "error"), ("message", .str message),
                        ("result", result)]) code ∧
    Resource.handler (.exc excMessage) =
      .withCode (.dict [("status", .str "error"), ("message", .str excMessage),
                        ("result", .pyNone)]) 500 :=
  ⟨rfl, rfl, rfl⟩

end Powny
